import Mathlib

/-!
Shallow embedding of the kalos compiler core (the `tonyxty/kalos` repository):
the AST (`src/ast.rs`), the scoped environment (`src/env.rs`), the type
checker (`src/tyck.rs`) and the LLVM lowerer (`src/codegen.rs`), together
with theorems settling the specification claims about them.

Rust `panic!`-class events (out-of-bounds indexing, `unwrap`, `unreachable!`,
`todo!`, `unimplemented!`, failed `assert!`) are modelled as an explicit
`panic` outcome, kept distinct from the `KalosError` results that the source
returns as `Err` values.
-/

/-- Builtin operators, from `KalosBuiltin` in `src/ast.rs`. -/
inductive KalosBuiltin where
  | Add
  | Subtract
  | Multiply
  | Divide
  | Modulo
  | Power
  | LessThan
  | LessEqual
  | Equal
  | GreaterEqual
  | GreaterThan
  | NotEqual
  deriving DecidableEq

mutual
/-- Types, from `KalosType` in `src/ast.rs`. -/
inductive KalosType where
  | Auto
  | Unit
  | Bool
  | Integer (signed : Bool) (width : Nat)
  | Text
  | Function (signature : KalosSignature)
/-- Function signatures, from `KalosSignature` in `src/ast.rs`. -/
inductive KalosSignature where
  | mk (params : List (String × KalosType)) (return_type : KalosType) (variadic : Bool)
end

/-- Accessor for the `params` field of `KalosSignature`. -/
def KalosSignature.params : KalosSignature → List (String × KalosType)
  | .mk p _ _ => p

/-- Accessor for the `return_type` field of `KalosSignature`. -/
def KalosSignature.return_type : KalosSignature → KalosType
  | .mk _ r _ => r

/-- Accessor for the `variadic` field of `KalosSignature`. -/
def KalosSignature.variadic : KalosSignature → Bool
  | .mk _ _ v => v

mutual
/-- Structural equality on types, mirroring the derived `PartialEq` of
`KalosType` in `src/ast.rs`. -/
def KalosType.beq : KalosType → KalosType → Bool
  | .Auto, .Auto => true
  | .Unit, .Unit => true
  | .Bool, .Bool => true
  | .Integer s1 w1, .Integer s2 w2 => s1 == s2 && w1 == w2
  | .Text, .Text => true
  | .Function sig1, .Function sig2 => KalosSignature.beq sig1 sig2
  | _, _ => false
/-- Structural equality on signatures, mirroring the hand-written `PartialEq`
of `KalosSignature` in `src/ast.rs` (params, return type and variadic flag
are all compared). -/
def KalosSignature.beq : KalosSignature → KalosSignature → Bool
  | .mk p1 r1 v1, .mk p2 r2 v2 =>
    paramsBeq p1 p2 && KalosType.beq r1 r2 && (v1 == v2)
/-- Pointwise structural equality of parameter lists. -/
def paramsBeq : List (String × KalosType) → List (String × KalosType) → Bool
  | [], [] => true
  | (n1, t1) :: r1, (n2, t2) :: r2 => n1 == n2 && KalosType.beq t1 t2 && paramsBeq r1 r2
  | _, _ => false
end

mutual
/-- The boolean equality on types agrees with propositional equality. -/
theorem kalosTypeBeq_iff : (a b : KalosType) → (KalosType.beq a b = true ↔ a = b)
  | .Auto, .Auto => by simp [KalosType.beq]
  | .Auto, .Unit => by simp [KalosType.beq]
  | .Auto, .Bool => by simp [KalosType.beq]
  | .Auto, .Integer _ _ => by simp [KalosType.beq]
  | .Auto, .Text => by simp [KalosType.beq]
  | .Auto, .Function _ => by simp [KalosType.beq]
  | .Unit, .Auto => by simp [KalosType.beq]
  | .Unit, .Unit => by simp [KalosType.beq]
  | .Unit, .Bool => by simp [KalosType.beq]
  | .Unit, .Integer _ _ => by simp [KalosType.beq]
  | .Unit, .Text => by simp [KalosType.beq]
  | .Unit, .Function _ => by simp [KalosType.beq]
  | .Bool, .Auto => by simp [KalosType.beq]
  | .Bool, .Unit => by simp [KalosType.beq]
  | .Bool, .Bool => by simp [KalosType.beq]
  | .Bool, .Integer _ _ => by simp [KalosType.beq]
  | .Bool, .Text => by simp [KalosType.beq]
  | .Bool, .Function _ => by simp [KalosType.beq]
  | .Integer _ _, .Auto => by simp [KalosType.beq]
  | .Integer _ _, .Unit => by simp [KalosType.beq]
  | .Integer _ _, .Bool => by simp [KalosType.beq]
  | .Integer _ _, .Integer _ _ => by simp [KalosType.beq]
  | .Integer _ _, .Text => by simp [KalosType.beq]
  | .Integer _ _, .Function _ => by simp [KalosType.beq]
  | .Text, .Auto => by simp [KalosType.beq]
  | .Text, .Unit => by simp [KalosType.beq]
  | .Text, .Bool => by simp [KalosType.beq]
  | .Text, .Integer _ _ => by simp [KalosType.beq]
  | .Text, .Text => by simp [KalosType.beq]
  | .Text, .Function _ => by simp [KalosType.beq]
  | .Function _, .Auto => by simp [KalosType.beq]
  | .Function _, .Unit => by simp [KalosType.beq]
  | .Function _, .Bool => by simp [KalosType.beq]
  | .Function _, .Integer _ _ => by simp [KalosType.beq]
  | .Function _, .Text => by simp [KalosType.beq]
  | .Function sig1, .Function sig2 => by
    simp [KalosType.beq, kalosSignatureBeq_iff sig1 sig2]
/-- The boolean equality on signatures agrees with propositional equality. -/
theorem kalosSignatureBeq_iff :
    (s1 s2 : KalosSignature) → (KalosSignature.beq s1 s2 = true ↔ s1 = s2)
  | .mk p1 r1 v1, .mk p2 r2 v2 => by
    simp [KalosSignature.beq, paramsBeq_iff p1 p2, kalosTypeBeq_iff r1 r2, and_assoc]
/-- The boolean equality on parameter lists agrees with propositional equality. -/
theorem paramsBeq_iff :
    (l1 l2 : List (String × KalosType)) → (paramsBeq l1 l2 = true ↔ l1 = l2)
  | [], [] => by simp [paramsBeq]
  | [], (_, _) :: _ => by simp [paramsBeq]
  | (_, _) :: _, [] => by simp [paramsBeq]
  | (n1, t1) :: r1, (n2, t2) :: r2 => by
    simp [paramsBeq, kalosTypeBeq_iff t1 t2, paramsBeq_iff r1 r2, and_assoc]
end

instance : DecidableEq KalosType := fun a b => decidable_of_iff _ (kalosTypeBeq_iff a b)

instance : DecidableEq KalosSignature := fun a b => decidable_of_iff _ (kalosSignatureBeq_iff a b)

/-- Errors, from `KalosError` in `src/ast.rs`. -/
inductive KalosError where
  | NameError
  | TypeError (expect : KalosType) (found : KalosType)
  | LvalueError
  | ArgError
  deriving DecidableEq

/-- One-sided unification, from `KalosType::try_unify` in `src/ast.rs`: an
`Auto` expected type accepts anything, otherwise the two types must be
structurally equal; the `actual` side is returned on success. -/
def KalosType.try_unify (self other : KalosType) : Except KalosError KalosType :=
  match self with
  | .Auto => .ok other
  | _ =>
    if self = other then .ok other
    else .error (.TypeError self other)

/-- Expressions, from `KalosExpr` in `src/ast.rs`. -/
inductive KalosExpr where
  | UnitLiteral
  | BoolLiteral (b : Bool)
  | IntLiteral (x : Int)
  | StringLiteral (s : String)
  | Call (func : KalosExpr) (args : List KalosExpr)
  | Builtin (builtin : KalosBuiltin) (args : List KalosExpr)
  | Identifier (name : String)

/-- Statements, from `KalosStmt` in `src/ast.rs`. -/
inductive KalosStmt where
  | Compound (s : List KalosStmt)
  | Assignment (lhs : KalosExpr) (rhs : KalosExpr)
  | Var (name : String) (ty : KalosType) (initializer : Option KalosExpr)
  | Return (expr : KalosExpr)
  | If (cond : KalosExpr) (then_part : KalosStmt) (else_part : Option KalosStmt)
  | While (cond : KalosExpr) (body : KalosStmt)
  | Expression (expr : KalosExpr)

/-- Top-level items, from `KalosToplevel` in `src/ast.rs`; a definition with
no body is an externally-linked declaration. -/
inductive KalosToplevel where
  | Def (name : String) (signature : KalosSignature) (body : Option KalosStmt)

/-- A program, from `KalosProgram` in `src/ast.rs`. -/
structure KalosProgram where
  program : List KalosToplevel

/-- The scoped environment, from `Env` in `src/env.rs`: a stack of hash
tables. The Rust `Vec` keeps the innermost scope at its end; here `tables`
keeps the innermost scope at the HEAD of the list, so `get`'s
`iter().rev().find_map(...)` becomes a front-to-back search. Each `HashMap`
is modelled as an association list with unique keys; only lookup and insert
are observable, so the modelling is faithful. -/
structure Env (K V : Type) where
  tables : List (List (K × V))

/-- Lookup in a single table, modelling `HashMap::get`. -/
def tableGet [DecidableEq K] (k : K) : List (K × V) → Option V
  | [] => none
  | (k2, v) :: rest => if k2 = k then some v else tableGet k rest

/-- Insert into a single table, modelling `HashMap::insert` (replace the
binding if the key is present, add it otherwise). The previous value that
`HashMap::insert` returns is discarded by every caller in the source, so it
is not returned here. -/
def tableInsert [DecidableEq K] (k : K) (v : V) : List (K × V) → List (K × V)
  | [] => [(k, v)]
  | (k2, v2) :: rest => if k2 = k then (k, v) :: rest else (k2, v2) :: tableInsert k v rest

/-- `Env::push_empty` from `src/env.rs`. -/
def Env.push_empty (e : Env K V) : Env K V :=
  ⟨[] :: e.tables⟩

/-- `Env::push` from `src/env.rs`. -/
def Env.push (e : Env K V) (t : List (K × V)) : Env K V :=
  ⟨t :: e.tables⟩

/-- `Env::pop` from `src/env.rs`; `none` models the `unwrap` panic on an
empty stack. -/
def Env.pop (e : Env K V) : Option (List (K × V) × Env K V) :=
  match e.tables with
  | [] => none
  | t :: ts => some (t, ⟨ts⟩)

/-- `Env::put` from `src/env.rs`: insert into the topmost scope; `none`
models the `unwrap` panic on an empty stack. -/
def Env.put [DecidableEq K] (e : Env K V) (k : K) (v : V) : Option (Env K V) :=
  match e.tables with
  | [] => none
  | t :: ts => some ⟨tableInsert k v t :: ts⟩

/-- `Env::get` from `src/env.rs`: search the scopes from innermost to
outermost and return the first hit. -/
def Env.get [DecidableEq K] (e : Env K V) (k : K) : Option V :=
  e.tables.findSome? (tableGet k)

/-- The outcome of a checker or lowerer operation: `panic` models a Rust
panic (index out of bounds, `unwrap`, `unreachable!`, ...), `err` a returned
`Err(KalosError)`, `ok` a success. -/
inductive Res (α : Type) where
  | panic
  | err (e : KalosError)
  | ok (a : α)
  deriving DecidableEq

/-- The checker state, from `Tycker` in `src/tyck.rs`: the scoped type
environment and the optional return type of the function whose body is being
checked. -/
structure Tycker where
  env : Env String KalosType
  current_fn_return_type : Option KalosType

/-- `Tycker::new` from `src/tyck.rs`: a single empty global scope and no
current function. -/
def Tycker.new : Tycker :=
  ⟨⟨[[]]⟩, none⟩

mutual
/-- `Tycker::tyck_builtin` from `src/tyck.rs`. The source indexes `args[0]`
and, after the first operand checks successfully, `args[1]`; each
out-of-bounds index is a panic. Arithmetic builtins return the first
operand's type, comparisons return `Bool`. -/
def Tycker.tyck_builtin (t : Tycker) (builtin : KalosBuiltin)
    (args : List KalosExpr) : Res KalosType :=
  match args with
  | [] => .panic
  | a0 :: rest =>
    match Tycker.tyck_expr t a0 with
    | .panic => .panic
    | .err e => .err e
    | .ok lhs =>
      match rest with
      | [] => .panic
      | a1 :: _ =>
        match Tycker.tyck_expr t a1 with
        | .panic => .panic
        | .err e => .err e
        | .ok _ =>
          match builtin with
          | .Add => .ok lhs
          | .Subtract => .ok lhs
          | .Multiply => .ok lhs
          | .Divide => .ok lhs
          | .Modulo => .ok lhs
          | .Power => .ok lhs
          | .LessThan => .ok .Bool
          | .LessEqual => .ok .Bool
          | .Equal => .ok .Bool
          | .GreaterEqual => .ok .Bool
          | .GreaterThan => .ok .Bool
          | .NotEqual => .ok .Bool
/-- `Tycker::tyck_expr` from `src/tyck.rs`. -/
def Tycker.tyck_expr (t : Tycker) : KalosExpr → Res KalosType
  | .UnitLiteral => .ok .Unit
  | .IntLiteral _ => .ok (.Integer true 64)
  | .BoolLiteral _ => .ok .Bool
  | .StringLiteral _ => .ok .Text
  | .Call func args =>
    match Tycker.tyck_expr t func with
    | .panic => .panic
    | .err e => .err e
    | .ok ty =>
      match ty with
      | .Function signature =>
        if args.length = signature.params.length ∨
            (signature.variadic = true ∧ signature.params.length < args.length) then
          match Tycker.tyck_call_args t signature.params args with
          | .panic => .panic
          | .err e => .err e
          | .ok _ => .ok signature.return_type
        else .err .ArgError
      | _ => .err (.TypeError .Auto ty)
  | .Builtin b args => Tycker.tyck_builtin t b args
  | .Identifier name =>
    match t.env.get name with
    | none => .err .NameError
    | some ty => .ok ty
/-- The argument loop of the `Call` arm of `Tycker::tyck_expr`:
`signature.params.iter().zip(args).try_for_each(...)`, checking each
argument against the matching declared parameter type (`zip` stops at the
shorter list, so excess variadic arguments are unchecked). -/
def Tycker.tyck_call_args (t : Tycker) :
    List (String × KalosType) → List KalosExpr → Res Unit
  | [], _ => .ok ()
  | _ :: _, [] => .ok ()
  | (_, ty) :: ps, arg :: rest =>
    match Tycker.tyck_expr t arg with
    | .panic => .panic
    | .err e => .err e
    | .ok arg_type =>
      match ty.try_unify arg_type with
      | .error e => .err e
      | .ok _ => Tycker.tyck_call_args t ps rest
end

mutual
/-- `Tycker::tyck_stmt` from `src/tyck.rs`. The state is threaded
explicitly: `.ok t2` returns the mutated checker. -/
def Tycker.tyck_stmt (t : Tycker) : KalosStmt → Res Tycker
  | .Compound s =>
    let t1 : Tycker := { t with env := t.env.push_empty }
    match Tycker.tyck_stmts t1 s with
    | .panic => .panic
    | .err e => .err e
    | .ok t2 =>
      match t2.env.pop with
      | none => .panic
      | some (_, env2) => .ok { t2 with env := env2 }
  | .Assignment lhs rhs =>
    match Tycker.tyck_expr t lhs with
    | .panic => .panic
    | .err e => .err e
    | .ok lhs_type =>
      match Tycker.tyck_expr t rhs with
      | .panic => .panic
      | .err e => .err e
      | .ok rhs_type =>
        match lhs_type.try_unify rhs_type with
        | .error e => .err e
        | .ok _ => .ok t
  | .Var name ty initializer =>
    let tyRes : Res KalosType :=
      match initializer with
      | some init =>
        match Tycker.tyck_expr t init with
        | .panic => .panic
        | .err e => .err e
        | .ok init_ty =>
          match ty.try_unify init_ty with
          | .error e => .err e
          | .ok u => .ok (if u = init_ty then init_ty else ty)
      | none => .ok ty
    match tyRes with
    | .panic => .panic
    | .err e => .err e
    | .ok ty2 =>
      match t.env.put name ty2 with
      | none => .panic
      | some env2 => .ok { t with env := env2 }
  | .Return expr =>
    match Tycker.tyck_expr t expr with
    | .panic => .panic
    | .err e => .err e
    | .ok ty =>
      match t.current_fn_return_type with
      | none => .panic
      | some rt =>
        match rt.try_unify ty with
        | .error e => .err e
        | .ok _ => .ok t
  | .If cond then_part else_part =>
    match Tycker.tyck_expr t cond with
    | .panic => .panic
    | .err e => .err e
    | .ok cond_ty =>
      match KalosType.Bool.try_unify cond_ty with
      | .error e => .err e
      | .ok _ =>
        match Tycker.tyck_stmt t then_part with
        | .panic => .panic
        | .err e => .err e
        | .ok t1 => Tycker.tyck_else t1 else_part
  | .While cond body =>
    match Tycker.tyck_expr t cond with
    | .panic => .panic
    | .err e => .err e
    | .ok cond_ty =>
      match KalosType.Bool.try_unify cond_ty with
      | .error e => .err e
      | .ok _ => Tycker.tyck_stmt t body
  | .Expression expr =>
    match Tycker.tyck_expr t expr with
    | .panic => .panic
    | .err e => .err e
    | .ok _ => .ok t
/-- The `if let Some(else_part) = else_part { self.tyck_stmt(else_part)? }`
step of the `If` arm of `Tycker::tyck_stmt`. -/
def Tycker.tyck_else (t : Tycker) : Option KalosStmt → Res Tycker
  | some ep => Tycker.tyck_stmt t ep
  | none => .ok t
/-- The `try_for_each` over the children of a `Compound` statement. -/
def Tycker.tyck_stmts (t : Tycker) : List KalosStmt → Res Tycker
  | [] => .ok t
  | s :: rest =>
    match Tycker.tyck_stmt t s with
    | .panic => .panic
    | .err e => .err e
    | .ok t1 => Tycker.tyck_stmts t1 rest
end

/-- `Tycker::tyck_toplevel` from `src/tyck.rs`: install the function's type
in the current (top-level: global) scope, then, when a body is present, push
a scope holding the parameters, set `current_fn_return_type`, check the
body, and pop the scope. The source does not reset `current_fn_return_type`
afterwards. -/
def Tycker.tyck_toplevel (t : Tycker) : KalosToplevel → Res Tycker
  | .Def name signature body =>
    match t.env.put name (.Function signature) with
    | none => .panic
    | some env1 =>
      let t1 : Tycker := { t with env := env1 }
      match body with
      | none => .ok t1
      | some b =>
        let frame := signature.params.foldl (fun acc p => tableInsert p.1 p.2 acc) []
        let t2 : Tycker :=
          { t1 with
            env := t1.env.push frame,
            current_fn_return_type := some signature.return_type }
        match Tycker.tyck_stmt t2 b with
        | .panic => .panic
        | .err e => .err e
        | .ok t3 =>
          match t3.env.pop with
          | none => .panic
          | some (_, env4) => .ok { t3 with env := env4 }

/-- The `try_for_each` over top-level items in `Tycker::tyck_program`. -/
def Tycker.tyck_toplevels (t : Tycker) : List KalosToplevel → Res Tycker
  | [] => .ok t
  | d :: rest =>
    match Tycker.tyck_toplevel t d with
    | .panic => .panic
    | .err e => .err e
    | .ok t1 => Tycker.tyck_toplevels t1 rest

/-- `Tycker::tyck_program` from `src/tyck.rs`: check the top-level items in
source order. -/
def Tycker.tyck_program (t : Tycker) (p : KalosProgram) : Res Tycker :=
  Tycker.tyck_toplevels t p.program

/-- LLVM types as the lowerer uses them, modelling inkwell's `AnyTypeEnum`:
the void type, integer types `i<width>`, and function types. -/
inductive LLVMType where
  | void
  | int (width : Nat)
  | fn (params : List LLVMType) (ret : LLVMType) (variadic : Bool)

/-- The conversion `AnyTypeEnum -> BasicTypeEnum` (`try_into`): integer
types are basic, the void type and function types are not. -/
def toBasicType : LLVMType → Option LLVMType
  | .int w => some (.int w)
  | _ => none

mutual
/-- `LLVMCodeGen::compile_type` from `src/codegen.rs`. `Auto` is
`unreachable!()` and `Text` is `unimplemented!()`, both modelled as `none`
(a panic); the `Integer` arm ignores the declared signedness and width and
always produces `i64`. -/
def LLVMCodeGen.compile_type : KalosType → Option LLVMType
  | .Auto => none
  | .Unit => some .void
  | .Bool => some (.int 1)
  | .Integer _ _ => some (.int 64)
  | .Text => none
  | .Function signature => LLVMCodeGen.compile_signature signature
/-- `LLVMCodeGen::compile_signature` from `src/codegen.rs`: lower the return
type, lower each parameter type and convert it to a basic type (`unwrap`:
`none` models the panic), then build the function type, treating a void
return type specially. -/
def LLVMCodeGen.compile_signature : KalosSignature → Option LLVMType
  | .mk params return_type variadic =>
    match LLVMCodeGen.compile_type return_type with
    | none => none
    | some ret =>
      match LLVMCodeGen.compile_param_types params with
      | none => none
      | some args =>
        match ret with
        | .void => some (.fn args .void variadic)
        | _ =>
          match toBasicType ret with
          | none => none
          | some retB => some (.fn args retB variadic)
/-- The parameter-type loop of `LLVMCodeGen::compile_signature`. -/
def LLVMCodeGen.compile_param_types :
    List (String × KalosType) → Option (List LLVMType)
  | [] => some []
  | (_, ty) :: rest =>
    match LLVMCodeGen.compile_type ty with
    | none => none
    | some t =>
      match toBasicType t with
      | none => none
      | some tb =>
        match LLVMCodeGen.compile_param_types rest with
        | none => none
        | some ts => some (tb :: ts)
end

/-- IR values, modelling inkwell's `AnyValueEnum` as the lowerer uses it:
integer constants, boolean constants, instruction results, stack-slot
pointers, function parameters and function handles. -/
inductive CGValue where
  | constInt (v : Int)
  | constBool (b : Bool)
  | reg (n : Nat)
  | ptr (n : Nat)
  | param (fname : String) (i : Nat)
  | fn (name : String)

/-- `AnyValueEnum::is_pointer_value`. -/
def CGValue.is_pointer_value : CGValue → Bool
  | .ptr _ => true
  | _ => false

/-- `AnyValueEnum::into_int_value`; `none` models the panic on a
non-integer value. Constants, instruction results and parameters are
integer values here; pointers and function handles are not. -/
def CGValue.into_int_value : CGValue → Option CGValue
  | .constInt v => some (.constInt v)
  | .constBool b => some (.constBool b)
  | .reg n => some (.reg n)
  | .param f i => some (.param f i)
  | _ => none

/-- `AnyValueEnum::into_pointer_value`; `none` models the panic. -/
def CGValue.into_pointer_value : CGValue → Option Nat
  | .ptr n => some n
  | _ => none

/-- `AnyValueEnum::into_function_value`; `none` models the panic. -/
def CGValue.into_function_value : CGValue → Option String
  | .fn n => some n
  | _ => none

/-- The conversion `AnyValueEnum -> BasicValueEnum` (`try_into().unwrap()`):
every value except a function handle is basic. -/
def CGValue.try_into_basic : CGValue → Option CGValue
  | .fn _ => none
  | v => some v

/-- IR instructions as the lowerer emits them: stack allocation, store,
load, arithmetic, comparison, call, and the three terminators
(unconditional branch, conditional branch, return). Branch targets are
indices of basic blocks within the enclosing function. -/
inductive Instr where
  | alloca (result : Nat) (name : String)
  | store (dst : CGValue) (v : CGValue)
  | load (result : Nat) (src : CGValue)
  | binop (result : Nat) (op : KalosBuiltin) (lhs rhs : CGValue)
  | icmp (result : Nat) (op : KalosBuiltin) (lhs rhs : CGValue)
  | call (result : Nat) (callee : String) (args : List CGValue)
  | br (target : Nat)
  | condbr (cond : CGValue) (then_target else_target : Nat)
  | ret (v : Option CGValue)

/-- A function in the IR module: its name, its LLVM type and its basic
blocks (each a list of instructions, in emission order). -/
structure FnDef where
  name : String
  ty : LLVMType
  blocks : List (List Instr)

/-- The lowerer state, from `LLVMCodeGen` in `src/codegen.rs`: the module's
functions, the scoped value environment, the builder's insertion point
(function name and block index), the current function, and a counter
supplying fresh instruction/slot identifiers. The function-pass manager is
run only after verification succeeds and does not affect any property
proved here, so it is not modelled. -/
structure CGState where
  functions : List FnDef
  env : Env String CGValue
  position : Option (String × Nat)
  current_fn : Option String
  nextId : Nat

/-- `LLVMCodeGen::new`: an empty module, a single empty global scope, no
insertion point and no current function. -/
def LLVMCodeGen.new : CGState :=
  ⟨[], ⟨[[]]⟩, none, none, 0⟩

/-- Find a function of the module by name. -/
def findFn (fs : List FnDef) (name : String) : Option FnDef :=
  match fs with
  | [] => none
  | f :: rest => if f.name = name then some f else findFn rest name

/-- Apply an update to the named function of the module. -/
def replaceFn (fs : List FnDef) (name : String) (g : FnDef → FnDef) : List FnDef :=
  match fs with
  | [] => []
  | f :: rest => if f.name = name then g f :: rest else f :: replaceFn rest name g

/-- Replace the element at an index of a list, leaving the list unchanged
when the index is out of range. -/
def modifyNth (g : α → α) : Nat → List α → List α
  | _, [] => []
  | 0, x :: xs => g x :: xs
  | n + 1, x :: xs => x :: modifyNth g n xs

/-- `Module::add_function`: append a new function with no basic blocks.
(Source programs are assumed to use distinct top-level names; LLVM would
rename a duplicate.) -/
def add_function (s : CGState) (name : String) (ty : LLVMType) : CGState :=
  { s with functions := s.functions ++ [⟨name, ty, []⟩] }

/-- `Context::append_basic_block`: append a fresh empty basic block to the
named function, returning its index; `none` when the function does not
exist in the module. -/
def appendBlock (s : CGState) (fname : String) : Option (CGState × Nat) :=
  match findFn s.functions fname with
  | none => none
  | some fd =>
    some ({ s with functions :=
              replaceFn s.functions fname (fun f => { f with blocks := f.blocks ++ [[]] }) },
          fd.blocks.length)

/-- `LLVMCodeGen::new_block` from `src/codegen.rs`: append a basic block to
the current function (`unwrap` panic, modelled as `none`, when there is
none). The block is returned as (function name, block index). -/
def LLVMCodeGen.new_block (s : CGState) : Option (CGState × (String × Nat)) :=
  match s.current_fn with
  | none => none
  | some fname =>
    match appendBlock s fname with
    | none => none
    | some (s1, idx) => some (s1, (fname, idx))

/-- `Builder::position_at_end`: move the insertion point to a block. -/
def position_at_end (s : CGState) (blk : String × Nat) : CGState :=
  { s with position := some blk }

/-- Emit one instruction at the builder's insertion point; `none` models
the crash of building without an insertion point. -/
def emit (s : CGState) (i : Instr) : Option CGState :=
  match s.position with
  | none => none
  | some (fname, bidx) =>
    let fs := replaceFn s.functions fname
      (fun f => { f with blocks := modifyNth (fun b => b ++ [i]) bidx f.blocks })
    some { s with functions := fs }

/-- The outcome of a stateful lowering operation: a panic, a returned
`Err(KalosError)`, or a value together with the updated lowerer state. -/
inductive CGRes (α : Type) where
  | panic
  | err (e : KalosError)
  | ok (a : α) (s : CGState)

/-- `LLVMCodeGen::compile_lvalue` from `src/codegen.rs`: only a bare
identifier is an lvalue; everything else is an `LvalueError`. The
identifier's value must already be a pointer (`into_pointer_value` panics
otherwise). -/
def LLVMCodeGen.compile_lvalue (s : CGState) (expr : KalosExpr) : Res Nat :=
  match expr with
  | .Identifier name =>
    match s.env.get name with
    | none => .err .NameError
    | some v =>
      match v.into_pointer_value with
      | none => .panic
      | some p => .ok p
  | _ => .err .LvalueError

mutual
/-- `LLVMCodeGen::compile_builtin` from `src/codegen.rs`. The source indexes
`args[0]` and, after the first operand lowers successfully, `args[1]`; each
out-of-bounds index is a panic, as are the `into_int_value` conversions on
non-integer operands. `Power` is `unimplemented!()`. -/
def LLVMCodeGen.compile_builtin (s : CGState) (b : KalosBuiltin)
    (args : List KalosExpr) : CGRes CGValue :=
  match args with
  | [] => .panic
  | a0 :: rest =>
    match LLVMCodeGen.compile_expr s a0 with
    | .panic => .panic
    | .err e => .err e
    | .ok v0 s0 =>
      match v0.into_int_value with
      | none => .panic
      | some lhs =>
        match rest with
        | [] => .panic
        | a1 :: _ =>
          match LLVMCodeGen.compile_expr s0 a1 with
          | .panic => .panic
          | .err e => .err e
          | .ok v1 s1 =>
            match v1.into_int_value with
            | none => .panic
            | some rhs =>
              match b with
              | .Add => emitBin s1 .Add lhs rhs
              | .Subtract => emitBin s1 .Subtract lhs rhs
              | .Multiply => emitBin s1 .Multiply lhs rhs
              | .Divide => emitBin s1 .Divide lhs rhs
              | .Modulo => emitBin s1 .Modulo lhs rhs
              | .Power => .panic
              | .LessThan => emitCmp s1 .LessThan lhs rhs
              | .LessEqual => emitCmp s1 .LessEqual lhs rhs
              | .Equal => emitCmp s1 .Equal lhs rhs
              | .GreaterEqual => emitCmp s1 .GreaterEqual lhs rhs
              | .GreaterThan => emitCmp s1 .GreaterThan lhs rhs
              | .NotEqual => emitCmp s1 .NotEqual lhs rhs
/-- `Builder::build_int_add` and friends: emit an arithmetic instruction
and return its result value. -/
def emitBin (s : CGState) (op : KalosBuiltin) (lhs rhs : CGValue) : CGRes CGValue :=
  match emit { s with nextId := s.nextId + 1 } (.binop s.nextId op lhs rhs) with
  | none => .panic
  | some s1 => .ok (.reg s.nextId) s1
/-- `Builder::build_int_compare`: emit a comparison instruction and return
its result value. -/
def emitCmp (s : CGState) (op : KalosBuiltin) (lhs rhs : CGValue) : CGRes CGValue :=
  match emit { s with nextId := s.nextId + 1 } (.icmp s.nextId op lhs rhs) with
  | none => .panic
  | some s1 => .ok (.reg s.nextId) s1
/-- `LLVMCodeGen::compile_expr` from `src/codegen.rs`. `UnitLiteral` is
`unreachable!()` and `StringLiteral` is `todo!()`, both panics. A call
lowers the callee to a function handle, lowers the arguments left to right,
emits a call, and substitutes the integer zero constant when the callee
returns void (`try_as_basic_value().left_or(...)`). An identifier bound to
a pointer (a local slot) is loaded; any other binding is returned
directly. -/
def LLVMCodeGen.compile_expr (s : CGState) : KalosExpr → CGRes CGValue
  | .UnitLiteral => .panic
  | .IntLiteral x => .ok (.constInt x) s
  | .BoolLiteral b => .ok (.constBool b) s
  | .StringLiteral _ => .panic
  | .Call func args =>
    match LLVMCodeGen.compile_expr s func with
    | .panic => .panic
    | .err e => .err e
    | .ok fv s1 =>
      match fv.into_function_value with
      | none => .panic
      | some fname =>
        match LLVMCodeGen.compile_args s1 args with
        | .panic => .panic
        | .err e => .err e
        | .ok argVals s2 =>
          match emit { s2 with nextId := s2.nextId + 1 } (.call s2.nextId fname argVals) with
          | none => .panic
          | some s3 =>
            match findFn s3.functions fname with
            | none => .panic
            | some fd =>
              match fd.ty with
              | .fn _ .void _ => .ok (.constInt 0) s3
              | _ => .ok (.reg s2.nextId) s3
  | .Builtin b args => LLVMCodeGen.compile_builtin s b args
  | .Identifier name =>
    match s.env.get name with
    | none => .err .NameError
    | some var =>
      if var.is_pointer_value then
        match emit { s with nextId := s.nextId + 1 } (.load s.nextId var) with
        | none => .panic
        | some s1 => .ok (.reg s.nextId) s1
      else .ok var s
/-- The argument loop of the `Call` arm of `LLVMCodeGen::compile_expr`:
lower each argument and convert it to a basic value
(`try_into().unwrap()`, a panic on a function handle). -/
def LLVMCodeGen.compile_args (s : CGState) : List KalosExpr → CGRes (List CGValue)
  | [] => .ok [] s
  | a :: rest =>
    match LLVMCodeGen.compile_expr s a with
    | .panic => .panic
    | .err e => .err e
    | .ok v s1 =>
      match v.try_into_basic with
      | none => .panic
      | some vb =>
        match LLVMCodeGen.compile_args s1 rest with
        | .panic => .panic
        | .err e => .err e
        | .ok vs s2 => .ok (vb :: vs) s2
end

mutual
/-- `LLVMCodeGen::compile_stmt` from `src/codegen.rs`. -/
def LLVMCodeGen.compile_stmt (s : CGState) : KalosStmt → CGRes Unit
  | .Compound stmts =>
    let s1 := { s with env := s.env.push_empty }
    match LLVMCodeGen.compile_stmts s1 stmts with
    | .panic => .panic
    | .err e => .err e
    | .ok _ s2 =>
      match s2.env.pop with
      | none => .panic
      | some (_, env2) => .ok () { s2 with env := env2 }
  | .Assignment lhs rhs =>
    match LLVMCodeGen.compile_lvalue s lhs with
    | .panic => .panic
    | .err e => .err e
    | .ok p =>
      match LLVMCodeGen.compile_expr s rhs with
      | .panic => .panic
      | .err e => .err e
      | .ok v s1 =>
        match v.try_into_basic with
        | none => .panic
        | some vb =>
          match emit s1 (.store (.ptr p) vb) with
          | none => .panic
          | some s2 => .ok () s2
  | .Var name _ initializer =>
    match emit { s with nextId := s.nextId + 1 } (.alloca s.nextId name) with
    | none => .panic
    | some s1 =>
      match s1.env.put name (.ptr s.nextId) with
      | none => .panic
      | some env1 =>
        let s2 := { s1 with env := env1 }
        match initializer with
        | none => .ok () s2
        | some init =>
          match LLVMCodeGen.compile_expr s2 init with
          | .panic => .panic
          | .err e => .err e
          | .ok v s3 =>
            match v.try_into_basic with
            | none => .panic
            | some vb =>
              match emit s3 (.store (.ptr s.nextId) vb) with
              | none => .panic
              | some s4 => .ok () s4
  | .Return expr =>
    match expr with
    | .UnitLiteral =>
      match emit s (.ret none) with
      | none => .panic
      | some s1 => .ok () s1
    | _ =>
      match LLVMCodeGen.compile_expr s expr with
      | .panic => .panic
      | .err e => .err e
      | .ok v s1 =>
        match v.try_into_basic with
        | none => .panic
        | some vb =>
          match emit s1 (.ret (some vb)) with
          | none => .panic
          | some s2 => .ok () s2
  | .If cond then_part else_part =>
    match LLVMCodeGen.compile_expr s cond with
    | .panic => .panic
    | .err e => .err e
    | .ok cv s1 =>
      match cv.into_int_value with
      | none => .panic
      | some cvi =>
        match LLVMCodeGen.new_block s1 with
        | none => .panic
        | some (s2, then_block) =>
          match LLVMCodeGen.new_block s2 with
          | none => .panic
          | some (s3, else_block) =>
            match LLVMCodeGen.new_block s3 with
            | none => .panic
            | some (s4, cont_block) =>
              match emit s4 (.condbr cvi then_block.2 else_block.2) with
              | none => .panic
              | some s5 =>
                match LLVMCodeGen.compile_stmt (position_at_end s5 then_block) then_part with
                | .panic => .panic
                | .err e => .err e
                | .ok _ s6 =>
                  match emit s6 (.br cont_block.2) with
                  | none => .panic
                  | some s7 =>
                    let s8 := position_at_end s7 else_block
                    match
                      (match else_part with
                       | some ep => LLVMCodeGen.compile_stmt s8 ep
                       | none => .ok () s8) with
                    | .panic => .panic
                    | .err e => .err e
                    | .ok _ s9 =>
                      match emit s9 (.br cont_block.2) with
                      | none => .panic
                      | some s10 => .ok () (position_at_end s10 cont_block)
  | .While cond body =>
    match LLVMCodeGen.compile_expr s cond with
    | .panic => .panic
    | .err e => .err e
    | .ok cv s1 =>
      match cv.into_int_value with
      | none => .panic
      | some cvi =>
        match LLVMCodeGen.new_block s1 with
        | none => .panic
        | some (s2, loop_block) =>
          match LLVMCodeGen.new_block s2 with
          | none => .panic
          | some (s3, cont_block) =>
            match emit s3 (.condbr cvi loop_block.2 cont_block.2) with
            | none => .panic
            | some s4 =>
              match LLVMCodeGen.compile_stmt (position_at_end s4 loop_block) body with
              | .panic => .panic
              | .err e => .err e
              | .ok _ s5 =>
                match LLVMCodeGen.compile_expr s5 cond with
                | .panic => .panic
                | .err e => .err e
                | .ok cv2 s6 =>
                  match cv2.into_int_value with
                  | none => .panic
                  | some cvi2 =>
                    match emit s6 (.condbr cvi2 loop_block.2 cont_block.2) with
                    | none => .panic
                    | some s7 => .ok () (position_at_end s7 cont_block)
  | .Expression expr =>
    match LLVMCodeGen.compile_expr s expr with
    | .panic => .panic
    | .err e => .err e
    | .ok _ s1 => .ok () s1
/-- The `try_for_each` over the children of a `Compound` statement in
`LLVMCodeGen::compile_stmt`. -/
def LLVMCodeGen.compile_stmts (s : CGState) : List KalosStmt → CGRes Unit
  | [] => .ok () s
  | st :: rest =>
    match LLVMCodeGen.compile_stmt s st with
    | .panic => .panic
    | .err e => .err e
    | .ok _ s1 => LLVMCodeGen.compile_stmts s1 rest
end

/-- Whether an instruction is a basic-block terminator. -/
def Instr.isTerminator : Instr → Bool
  | .br _ => true
  | .condbr _ _ _ => true
  | .ret _ => true
  | _ => false

/-- A block is well terminated when it is nonempty, its last instruction is
a terminator, and no earlier instruction is one. -/
def blockTerminated : List Instr → Bool
  | [] => false
  | [i] => i.isTerminator
  | i :: rest => !i.isTerminator && blockTerminated rest

/-- The basic-block discipline that `FunctionValue::verify` enforces and
that matters here: every basic block of the function ends with exactly one
terminator. `LLVMCodeGen::compile_toplevel` asserts this
(`assert!(func.verify(true))`), so a failure is a panic of the compiler. -/
def verifyFunction (s : CGState) (name : String) : Bool :=
  match findFn s.functions name with
  | none => false
  | some fd => fd.blocks.all blockTerminated

/-- The parameter scope pushed for a function body: each parameter name
bound to its SSA argument value
(`signature.params.iter().zip(func.get_param_iter())...collect()`). -/
def paramFrame (fname : String) (params : List (String × KalosType)) :
    List (String × CGValue) :=
  (params.enum).foldl (fun acc p => tableInsert p.2.1 (.param fname p.1) acc) []

/-- `LLVMCodeGen::compile_toplevel` from `src/codegen.rs`: translate the
signature, add the function to the module, bind its handle in the current
scope; when a body is present, push the parameter scope, append and enter
an entry block, record the current function, lower the body, clear the
current function, assert that the function verifies (a failed assert is a
panic), and pop the scope. No return instruction is ever appended for a
body whose final block lacks a terminator. -/
def LLVMCodeGen.compile_toplevel (s : CGState) : KalosToplevel → CGRes CGValue
  | .Def name signature body =>
    match LLVMCodeGen.compile_signature signature with
    | none => .panic
    | some fn_type =>
      let s1 := add_function s name fn_type
      match s1.env.put name (.fn name) with
      | none => .panic
      | some env1 =>
        let s2 := { s1 with env := env1 }
        match body with
        | none => .ok (.fn name) s2
        | some b =>
          let s3 := { s2 with env := s2.env.push (paramFrame name signature.params) }
          match appendBlock s3 name with
          | none => .panic
          | some (s4, blk) =>
            let s5 := { position_at_end s4 (name, blk) with current_fn := some name }
            match LLVMCodeGen.compile_stmt s5 b with
            | .panic => .panic
            | .err e => .err e
            | .ok _ s6 =>
              let s7 := { s6 with current_fn := none }
              if verifyFunction s7 name then
                match s7.env.pop with
                | none => .panic
                | some (_, env2) => .ok (.fn name) { s7 with env := env2 }
              else .panic
/-- The `try_for_each` over top-level items in
`LLVMCodeGen::compile_program`. -/
def LLVMCodeGen.compile_toplevels (s : CGState) : List KalosToplevel → CGRes Unit
  | [] => .ok () s
  | d :: rest =>
    match LLVMCodeGen.compile_toplevel s d with
    | .panic => .panic
    | .err e => .err e
    | .ok _ s1 => LLVMCodeGen.compile_toplevels s1 rest

/-- `LLVMCodeGen::compile_program` from `src/codegen.rs`. -/
def LLVMCodeGen.compile_program (s : CGState) (p : KalosProgram) : CGRes Unit :=
  LLVMCodeGen.compile_toplevels s p.program

/-- Whether an expression is syntactically a bare identifier (the lvalue
criterion of `LLVMCodeGen::compile_lvalue`). -/
def KalosExpr.isIdentifierExpr : KalosExpr → Bool
  | .Identifier _ => true
  | _ => false

/-- Looking up a key just inserted into a table finds the inserted value. -/
theorem tableGet_insert_self [DecidableEq K] (k : K) (v : V) :
    (l : List (K × V)) → tableGet k (tableInsert k v l) = some v
  | [] => by simp [tableInsert, tableGet]
  | (k2, v2) :: rest => by
    by_cases h : k2 = k
    · simp [tableInsert, h, tableGet]
    · simp [tableInsert, h, tableGet, tableGet_insert_self k v rest]

/-- Inserting one key leaves lookups of other keys unchanged. -/
theorem tableGet_insert_ne [DecidableEq K] (q k : K) (v : V) (hqk : q ≠ k) :
    (l : List (K × V)) → tableGet q (tableInsert k v l) = tableGet q l
  | [] => by simp [tableInsert, tableGet, Ne.symm hqk]
  | (k2, v2) :: rest => by
    by_cases h : k2 = k
    · subst h
      simp [tableInsert, tableGet, Ne.symm hqk]
    · simp [tableInsert, h, tableGet, tableGet_insert_ne q k v hqk rest]

/-- A sequence of `put` operations after a `push_empty` only grows the new
innermost scope: the outer scopes survive untouched. -/
theorem env_put_fold_top [DecidableEq K] :
    (ps : List (K × V)) → ∀ (f : List (K × V)) (ts : List (List (K × V))),
      ∃ f2, ps.foldlM (fun acc kv => Env.put acc kv.1 kv.2) (⟨f :: ts⟩ : Env K V) =
        some (⟨f2 :: ts⟩ : Env K V)
  | [] => fun f _ => ⟨f, rfl⟩
  | (k, v) :: ps => fun f ts => by
    obtain ⟨f2, hf⟩ := env_put_fold_top ps (tableInsert k v f) ts
    exact ⟨f2, by simpa [List.foldlM, Env.put] using hf⟩

/-- Unfolding of `tyck_builtin` on a one-element argument list: the first
operand is checked, and then indexing `args[1]` panics. -/
theorem tyck_builtin_one (t : Tycker) (b : KalosBuiltin) (a : KalosExpr) :
    Tycker.tyck_builtin t b [a] =
      (match Tycker.tyck_expr t a with
       | .panic => .panic
       | .err e => .err e
       | .ok _ => .panic) := rfl

/-- Unfolding of `tyck_builtin` on two or more arguments. -/
theorem tyck_builtin_cons_cons (t : Tycker) (b : KalosBuiltin) (a0 a1 : KalosExpr)
    (rest : List KalosExpr) :
    Tycker.tyck_builtin t b (a0 :: a1 :: rest) =
      (match Tycker.tyck_expr t a0 with
       | .panic => .panic
       | .err e => .err e
       | .ok lhs =>
         match Tycker.tyck_expr t a1 with
         | .panic => .panic
         | .err e => .err e
         | .ok _ =>
           match b with
           | .Add => .ok lhs
           | .Subtract => .ok lhs
           | .Multiply => .ok lhs
           | .Divide => .ok lhs
           | .Modulo => .ok lhs
           | .Power => .ok lhs
           | .LessThan => .ok .Bool
           | .LessEqual => .ok .Bool
           | .Equal => .ok .Bool
           | .GreaterEqual => .ok .Bool
           | .GreaterThan => .ok .Bool
           | .NotEqual => .ok .Bool) := rfl

/-- Unfolding of `compile_builtin` on a one-element argument list: the first
operand is lowered and converted, and then indexing `args[1]` panics. -/
theorem compile_builtin_one (s : CGState) (b : KalosBuiltin) (a : KalosExpr) :
    LLVMCodeGen.compile_builtin s b [a] =
      (match LLVMCodeGen.compile_expr s a with
       | .panic => .panic
       | .err e => .err e
       | .ok v0 _ =>
         match v0.into_int_value with
         | none => .panic
         | some _ => .panic) := rfl

/-- Unfolding of `tyck_stmt` on a compound statement. -/
theorem tyck_stmt_Compound_eq (t : Tycker) (s : List KalosStmt) :
    Tycker.tyck_stmt t (.Compound s) =
      (match Tycker.tyck_stmts { t with env := t.env.push_empty } s with
       | .panic => .panic
       | .err e => .err e
       | .ok t2 =>
         match t2.env.pop with
         | none => .panic
         | some (_, env2) => .ok { t2 with env := env2 }) := rfl

/-- Unfolding of `tyck_stmt` on an assignment. -/
theorem tyck_stmt_Assignment_eq (t : Tycker) (lhs rhs : KalosExpr) :
    Tycker.tyck_stmt t (.Assignment lhs rhs) =
      (match Tycker.tyck_expr t lhs with
       | .panic => .panic
       | .err e => .err e
       | .ok lhs_type =>
         match Tycker.tyck_expr t rhs with
         | .panic => .panic
         | .err e => .err e
         | .ok rhs_type =>
           match lhs_type.try_unify rhs_type with
           | .error e => .err e
           | .ok _ => .ok t) := rfl

/-- Unfolding of `tyck_stmt` on a variable declaration. -/
theorem tyck_stmt_Var_eq (t : Tycker) (name : String) (ty : KalosType)
    (initializer : Option KalosExpr) :
    Tycker.tyck_stmt t (.Var name ty initializer) =
      (match
        ((match initializer with
         | some init =>
           match Tycker.tyck_expr t init with
           | .panic => .panic
           | .err e => .err e
           | .ok init_ty =>
             match ty.try_unify init_ty with
             | .error e => .err e
             | .ok u => .ok (if u = init_ty then init_ty else ty)
         | none => .ok ty) : Res KalosType) with
       | .panic => .panic
       | .err e => .err e
       | .ok ty2 =>
         match t.env.put name ty2 with
         | none => .panic
         | some env2 => .ok { t with env := env2 }) := rfl

/-- Unfolding of `tyck_stmt` on a return statement. -/
theorem tyck_stmt_Return_eq (t : Tycker) (expr : KalosExpr) :
    Tycker.tyck_stmt t (.Return expr) =
      (match Tycker.tyck_expr t expr with
       | .panic => .panic
       | .err e => .err e
       | .ok ty =>
         match t.current_fn_return_type with
         | none => .panic
         | some rt =>
           match rt.try_unify ty with
           | .error e => .err e
           | .ok _ => .ok t) := rfl

/-- Unfolding of `tyck_stmt` on a conditional. -/
theorem tyck_stmt_If_eq (t : Tycker) (cond : KalosExpr) (then_part : KalosStmt)
    (else_part : Option KalosStmt) :
    Tycker.tyck_stmt t (.If cond then_part else_part) =
      (match Tycker.tyck_expr t cond with
       | .panic => .panic
       | .err e => .err e
       | .ok cond_ty =>
         match KalosType.Bool.try_unify cond_ty with
         | .error e => .err e
         | .ok _ =>
           match Tycker.tyck_stmt t then_part with
           | .panic => .panic
           | .err e => .err e
           | .ok t1 => Tycker.tyck_else t1 else_part) := rfl

/-- Unfolding of `tyck_stmt` on a while loop. -/
theorem tyck_stmt_While_eq (t : Tycker) (cond : KalosExpr) (body : KalosStmt) :
    Tycker.tyck_stmt t (.While cond body) =
      (match Tycker.tyck_expr t cond with
       | .panic => .panic
       | .err e => .err e
       | .ok cond_ty =>
         match KalosType.Bool.try_unify cond_ty with
         | .error e => .err e
         | .ok _ => Tycker.tyck_stmt t body) := rfl

/-- Unfolding of `tyck_stmt` on an expression statement. -/
theorem tyck_stmt_Expression_eq (t : Tycker) (expr : KalosExpr) :
    Tycker.tyck_stmt t (.Expression expr) =
      (match Tycker.tyck_expr t expr with
       | .panic => .panic
       | .err e => .err e
       | .ok _ => .ok t) := rfl

/-- Unfolding of the else step on a present else branch. -/
theorem tyck_else_some_eq (t : Tycker) (ep : KalosStmt) :
    Tycker.tyck_else t (some ep) = Tycker.tyck_stmt t ep := rfl

/-- Unfolding of `tyck_stmts` on a nonempty sequence. -/
theorem tyck_stmts_cons_eq (t : Tycker) (s : KalosStmt) (rest : List KalosStmt) :
    Tycker.tyck_stmts t (s :: rest) =
      (match Tycker.tyck_stmt t s with
       | .panic => .panic
       | .err e => .err e
       | .ok t1 => Tycker.tyck_stmts t1 rest) := rfl

/-- With no declared parameters the argument loop accepts anything (`zip`
with an empty list is empty). -/
theorem tyck_call_args_nil (t : Tycker) :
    (args : List KalosExpr) → Tycker.tyck_call_args t [] args = .ok ()
  | [] => rfl
  | _ :: _ => rfl

/-- Unfolding of `tyck_expr` on a call. -/
theorem tyck_expr_Call_eq (t : Tycker) (func : KalosExpr) (args : List KalosExpr) :
    Tycker.tyck_expr t (.Call func args) =
      (match Tycker.tyck_expr t func with
       | .panic => .panic
       | .err e => .err e
       | .ok ty =>
         match ty with
         | .Function signature =>
           if args.length = signature.params.length ∨
               (signature.variadic = true ∧ signature.params.length < args.length) then
             match Tycker.tyck_call_args t signature.params args with
             | .panic => .panic
             | .err e => .err e
             | .ok _ => .ok signature.return_type
           else .err .ArgError
         | _ => .err (.TypeError .Auto ty)) := rfl

mutual
/-- Checking a statement never changes `current_fn_return_type`, and on
success it changes only the innermost scope: the outer scopes of the
environment are returned unchanged. -/
theorem tyck_stmt_frame : (st : KalosStmt) → ∀ (t t2 : Tycker),
    Tycker.tyck_stmt t st = .ok t2 →
    t2.current_fn_return_type = t.current_fn_return_type ∧
    ∀ f ts, t.env.tables = f :: ts → ∃ f2, t2.env.tables = f2 :: ts
  | .Compound s => by
    intro t t2 h
    rw [tyck_stmt_Compound_eq] at h
    cases e1 : Tycker.tyck_stmts { t with env := t.env.push_empty } s with
    | panic => rw [e1] at h; simp at h
    | err e => rw [e1] at h; simp at h
    | ok t3 =>
      rw [e1] at h
      simp at h
      obtain ⟨hcrt, htab⟩ := tyck_stmts_frame s _ _ e1
      obtain ⟨f2, hf2⟩ := htab [] t.env.tables rfl
      simp only [Env.pop] at h
      rw [hf2] at h
      simp at h
      subst h
      exact ⟨hcrt, fun f ts hft => ⟨f, hft⟩⟩
  | .Assignment lhs rhs => by
    intro t t2 h
    rw [tyck_stmt_Assignment_eq] at h
    cases e1 : Tycker.tyck_expr t lhs with
    | panic => rw [e1] at h; simp at h
    | err e => rw [e1] at h; simp at h
    | ok ty1 =>
      rw [e1] at h
      simp at h
      cases e2 : Tycker.tyck_expr t rhs with
      | panic => rw [e2] at h; simp at h
      | err e => rw [e2] at h; simp at h
      | ok ty2 =>
        rw [e2] at h
        simp at h
        cases e3 : ty1.try_unify ty2 with
        | error e => rw [e3] at h; simp at h
        | ok u =>
          rw [e3] at h
          simp at h
          subst h
          exact ⟨rfl, fun f ts hft => ⟨f, hft⟩⟩
  | .Var name ty initializer => by
    intro t t2 h
    rw [tyck_stmt_Var_eq] at h
    have hput : ∀ ty2 : KalosType,
        (match t.env.put name ty2 with
         | none => (Res.panic : Res Tycker)
         | some env2 => .ok { t with env := env2 }) = .ok t2 →
        t2.current_fn_return_type = t.current_fn_return_type ∧
        ∀ f ts, t.env.tables = f :: ts → ∃ f2, t2.env.tables = f2 :: ts := by
      intro ty2 hp
      cases e2 : t.env.put name ty2 with
      | none => rw [e2] at hp; simp at hp
      | some env2 =>
        rw [e2] at hp
        simp at hp
        subst hp
        refine ⟨rfl, fun f ts hft => ?_⟩
        simp only [Env.put] at e2
        rw [hft] at e2
        simp at e2
        subst e2
        exact ⟨tableInsert name ty2 f, rfl⟩
    cases initializer with
    | none =>
      simp at h
      exact hput ty h
    | some init =>
      simp at h
      cases e1 : Tycker.tyck_expr t init with
      | panic => rw [e1] at h; simp at h
      | err e => rw [e1] at h; simp at h
      | ok init_ty =>
        rw [e1] at h
        simp at h
        cases e3 : ty.try_unify init_ty with
        | error e => rw [e3] at h; simp at h
        | ok u =>
          rw [e3] at h
          simp at h
          exact hput _ h
  | .Return expr => by
    intro t t2 h
    rw [tyck_stmt_Return_eq] at h
    cases e1 : Tycker.tyck_expr t expr with
    | panic => rw [e1] at h; simp at h
    | err e => rw [e1] at h; simp at h
    | ok ty =>
      rw [e1] at h
      simp at h
      cases e2 : t.current_fn_return_type with
      | none => rw [e2] at h; simp at h
      | some rt =>
        rw [e2] at h
        simp at h
        cases e3 : rt.try_unify ty with
        | error e => rw [e3] at h; simp at h
        | ok u =>
          rw [e3] at h
          simp at h
          subst h
          exact ⟨e2, fun f ts hft => ⟨f, hft⟩⟩
  | .If cond then_part else_part => by
    intro t t2 h
    rw [tyck_stmt_If_eq] at h
    cases e1 : Tycker.tyck_expr t cond with
    | panic => rw [e1] at h; simp at h
    | err e => rw [e1] at h; simp at h
    | ok cond_ty =>
      rw [e1] at h
      simp at h
      cases e2 : KalosType.Bool.try_unify cond_ty with
      | error e => rw [e2] at h; simp at h
      | ok u =>
        rw [e2] at h
        simp at h
        cases e3 : Tycker.tyck_stmt t then_part with
        | panic => rw [e3] at h; simp at h
        | err e => rw [e3] at h; simp at h
        | ok t1 =>
          rw [e3] at h
          simp at h
          obtain ⟨hc1, ht1⟩ := tyck_stmt_frame then_part _ _ e3
          obtain ⟨hc2, ht2⟩ := tyck_else_frame else_part _ _ h
          refine ⟨hc2.trans hc1, fun f ts hft => ?_⟩
          obtain ⟨f1, hf1⟩ := ht1 f ts hft
          exact ht2 f1 ts hf1
  | .While cond body => by
    intro t t2 h
    rw [tyck_stmt_While_eq] at h
    cases e1 : Tycker.tyck_expr t cond with
    | panic => rw [e1] at h; simp at h
    | err e => rw [e1] at h; simp at h
    | ok cond_ty =>
      rw [e1] at h
      simp at h
      cases e2 : KalosType.Bool.try_unify cond_ty with
      | error e => rw [e2] at h; simp at h
      | ok u =>
        rw [e2] at h
        simp at h
        exact tyck_stmt_frame body _ _ h
  | .Expression expr => by
    intro t t2 h
    rw [tyck_stmt_Expression_eq] at h
    cases e1 : Tycker.tyck_expr t expr with
    | panic => rw [e1] at h; simp at h
    | err e => rw [e1] at h; simp at h
    | ok ty =>
      rw [e1] at h
      simp at h
      subst h
      exact ⟨rfl, fun f ts hft => ⟨f, hft⟩⟩
/-- The optional-else step preserves the frame discipline. -/
theorem tyck_else_frame : (op : Option KalosStmt) → ∀ (t t2 : Tycker),
    Tycker.tyck_else t op = .ok t2 →
    t2.current_fn_return_type = t.current_fn_return_type ∧
    ∀ f ts, t.env.tables = f :: ts → ∃ f2, t2.env.tables = f2 :: ts
  | some ep => by
    intro t t2 h
    rw [tyck_else_some_eq] at h
    exact tyck_stmt_frame ep _ _ h
  | none => by
    intro t t2 h
    cases h
    exact ⟨rfl, fun f ts hft => ⟨f, hft⟩⟩
/-- A statement sequence preserves the frame discipline. -/
theorem tyck_stmts_frame : (l : List KalosStmt) → ∀ (t t2 : Tycker),
    Tycker.tyck_stmts t l = .ok t2 →
    t2.current_fn_return_type = t.current_fn_return_type ∧
    ∀ f ts, t.env.tables = f :: ts → ∃ f2, t2.env.tables = f2 :: ts
  | [] => by
    intro t t2 h
    cases h
    exact ⟨rfl, fun f ts hft => ⟨f, hft⟩⟩
  | s :: rest => by
    intro t t2 h
    rw [tyck_stmts_cons_eq] at h
    cases e1 : Tycker.tyck_stmt t s with
    | panic => rw [e1] at h; simp at h
    | err e => rw [e1] at h; simp at h
    | ok t1 =>
      rw [e1] at h
      simp at h
      obtain ⟨hc1, ht1⟩ := tyck_stmt_frame s _ _ e1
      obtain ⟨hc2, ht2⟩ := tyck_stmts_frame rest _ _ h
      refine ⟨hc2.trans hc1, fun f ts hft => ?_⟩
      obtain ⟨f1, hf1⟩ := ht1 f ts hft
      exact ht2 f1 ts hf1
end

/-- C1 counterexample: a top-level body that references a function defined
later in the program does not type check; `tyck_program` returns
`NameError`, because `g`'s signature has not yet been installed when `f`'s
body is checked. -/
theorem tyck_forward_reference_name_error :
    Tycker.tyck_program Tycker.new
      ⟨[.Def "f" (.mk [] .Unit false) (some (.Expression (.Call (.Identifier "g") []))),
        .Def "g" (.mk [] .Unit false) none]⟩ = .err .NameError := rfl

/-- C1 (amended): `tyck_program` installs each definition's signature in the
global scope immediately before checking that definition's own body, so a
self-recursive reference resolves (first conjunct, where the body calls the
function being defined); but signatures of later definitions are not yet
installed, so a forward reference to a function defined later fails with
`NameError` (second conjunct). -/
theorem tyck_signature_install_order (nm nm2 : String) (rt : KalosType) (t : Tycker)
    (f : List (String × KalosType)) (ts : List (List (String × KalosType)))
    (henv : t.env.tables = f :: ts)
    (hget : t.env.get nm2 = none) (hne : nm ≠ nm2) :
    Tycker.tyck_program t
      ⟨[.Def nm (.mk [] rt false) (some (.Expression (.Call (.Identifier nm) [])))]⟩ =
      .ok ⟨⟨tableInsert nm (.Function (.mk [] rt false)) f :: ts⟩, some rt⟩ ∧
    Tycker.tyck_program t
      ⟨[.Def nm (.mk [] rt false) (some (.Expression (.Call (.Identifier nm2) []))),
        .Def nm2 (.mk [] rt false) none]⟩ = .err .NameError := by
  constructor
  · have hcall : Tycker.tyck_expr
        { env := Env.push ⟨tableInsert nm (KalosType.Function (.mk [] rt false)) f :: ts⟩ [],
          current_fn_return_type := some rt }
        (.Call (.Identifier nm) []) = .ok rt := by
      simp [Tycker.tyck_expr, Env.get, Env.push, List.findSome?, tableGet,
        tableGet_insert_self, KalosSignature.params, KalosSignature.variadic,
        KalosSignature.return_type, tyck_call_args_nil]
    have hstmt : Tycker.tyck_stmt
        { env := Env.push ⟨tableInsert nm (KalosType.Function (.mk [] rt false)) f :: ts⟩ [],
          current_fn_return_type := some rt }
        (.Expression (.Call (.Identifier nm) [])) = .ok
        { env := Env.push ⟨tableInsert nm (KalosType.Function (.mk [] rt false)) f :: ts⟩ [],
          current_fn_return_type := some rt } := by
      rw [tyck_stmt_Expression_eq, hcall]
    simp only [Tycker.tyck_program, Tycker.tyck_toplevels, Tycker.tyck_toplevel, Env.put]
    rw [henv]
    simp only [KalosSignature.params, KalosSignature.return_type, List.foldl_nil]
    rw [hstmt]
    simp [Env.pop, Env.push]
  · simp only [Env.get] at hget
    rw [henv] at hget
    simp only [List.findSome?] at hget
    cases e : tableGet nm2 f with
    | some v => rw [e] at hget; simp at hget
    | none =>
      rw [e] at hget
      have hts : List.findSome? (tableGet nm2) ts = none := hget
      have hid2 : Tycker.tyck_expr
          { env := Env.push ⟨tableInsert nm (KalosType.Function (.mk [] rt false)) f :: ts⟩ [],
            current_fn_return_type := some rt }
          (.Identifier nm2) = .err .NameError := by
        simp [Tycker.tyck_expr, Env.get, Env.push, List.findSome?, tableGet,
          tableGet_insert_ne nm2 nm (KalosType.Function (.mk [] rt false)) (Ne.symm hne) f,
          e, hts]
      have hcall2 : Tycker.tyck_expr
          { env := Env.push ⟨tableInsert nm (KalosType.Function (.mk [] rt false)) f :: ts⟩ [],
            current_fn_return_type := some rt }
          (.Call (.Identifier nm2) []) = .err .NameError := by
        rw [tyck_expr_Call_eq, hid2]
      have hstmt2 : Tycker.tyck_stmt
          { env := Env.push ⟨tableInsert nm (KalosType.Function (.mk [] rt false)) f :: ts⟩ [],
            current_fn_return_type := some rt }
          (.Expression (.Call (.Identifier nm2) [])) = .err .NameError := by
        rw [tyck_stmt_Expression_eq, hcall2]
      simp only [Tycker.tyck_program, Tycker.tyck_toplevels, Tycker.tyck_toplevel, Env.put]
      rw [henv]
      simp only [KalosSignature.params, KalosSignature.return_type, List.foldl_nil]
      rw [hstmt2]

/-- Witness for `tyck_signature_install_order` at a concrete checker state
and concrete names. -/
theorem tyck_signature_install_order_witness :
    Tycker.tyck_program Tycker.new
      ⟨[.Def "f" (.mk [] .Unit false) (some (.Expression (.Call (.Identifier "f") [])))]⟩ =
      .ok ⟨⟨tableInsert "f" (.Function (.mk [] .Unit false)) [] :: []⟩, some .Unit⟩ ∧
    Tycker.tyck_program Tycker.new
      ⟨[.Def "f" (.mk [] .Unit false) (some (.Expression (.Call (.Identifier "g") []))),
        .Def "g" (.mk [] .Unit false) none]⟩ = .err .NameError :=
  tyck_signature_install_order "f" "g" .Unit Tycker.new [] [] rfl rfl (by decide)

/-- C2 counterexample: a variable declaration with neither annotation nor
initializer is ACCEPTED by the checker (no `TypeError`), and the variable is
bound to `Auto` in the environment, so `Auto` survives checking. -/
theorem tyck_var_auto_no_init_accepted :
    Tycker.tyck_stmt Tycker.new (.Var "x" .Auto none) = .ok ⟨⟨[[("x", .Auto)]]⟩, none⟩ ∧
    Env.get (⟨[[("x", KalosType.Auto)]]⟩ : Env String KalosType) "x" = some .Auto :=
  ⟨rfl, rfl⟩

/-- C2 (amended): for a declaration with `Auto` annotation and no
initializer, `tyck_stmt` succeeds and inserts the variable with type `Auto`
into the current scope; no error is raised and the binding is `Auto`, not a
concrete type. -/
theorem tyck_var_auto_no_init_binds_auto (t : Tycker) (name : String)
    (f : List (String × KalosType)) (ts : List (List (String × KalosType)))
    (henv : t.env.tables = f :: ts) :
    Tycker.tyck_stmt t (.Var name .Auto none) =
      .ok { t with env := ⟨tableInsert name .Auto f :: ts⟩ } ∧
    Env.get (⟨tableInsert name KalosType.Auto f :: ts⟩ : Env String KalosType) name =
      some .Auto := by
  constructor
  · rw [tyck_stmt_Var_eq]
    simp only [Env.put]
    rw [henv]
  · simp [Env.get, List.findSome?, tableGet_insert_self]

/-- Witness for `tyck_var_auto_no_init_binds_auto` at the initial checker
state. -/
theorem tyck_var_auto_no_init_binds_auto_witness :
    Tycker.tyck_stmt Tycker.new (.Var "y" .Auto none) =
      .ok { Tycker.new with env := ⟨tableInsert "y" .Auto [] :: []⟩ } ∧
    Env.get (⟨tableInsert "y" KalosType.Auto [] :: []⟩ : Env String KalosType) "y" =
      some .Auto :=
  tyck_var_auto_no_init_binds_auto Tycker.new "y" [] [] rfl

/-- C3: the lowerer does NOT append a return instruction when the body's
final basic block lacks a terminator. For `def f() { }` (a Unit-returning
definition whose body is an empty compound statement) the entry block stays
empty, the function fails the verifier's terminator discipline, and the
`assert!(func.verify(true))` in `compile_toplevel` panics instead of
emission succeeding with an appended `ret void`. -/
theorem compile_missing_terminator_panics :
    LLVMCodeGen.compile_toplevel LLVMCodeGen.new
      (.Def "f" (.mk [] .Unit false) (some (.Compound []))) = .panic := rfl

/-- C4 counterexample: the type mapping sends `Integer{signed, width = 8}`
to `i64`, not to `i8`: the source ignores the declared width. -/
theorem compile_type_integer_width_ignored :
    LLVMCodeGen.compile_type (.Integer true 8) = some (.int 64) ∧
    some (LLVMType.int 64) ≠ some (LLVMType.int 8) := ⟨rfl, by simp⟩

/-- C4 (amended): the lowerer's type mapping sends `Unit` to the IR void
type and `Bool` to `i1`, but maps EVERY `Integer{signed, width}` to `i64`,
whatever the declared signedness and width. -/
theorem compile_type_mapping_amended :
    LLVMCodeGen.compile_type .Unit = some .void ∧
    LLVMCodeGen.compile_type .Bool = some (.int 1) ∧
    ∀ (signed : Bool) (width : Nat),
      LLVMCodeGen.compile_type (.Integer signed width) = some (.int 64) :=
  ⟨rfl, rfl, fun _ _ => rfl⟩

/-- C5: for a call whose callee checks to a `Function` type, the checker
returns `ArgError` exactly when the arity law fails: a variadic callee
requires at least as many arguments as declared parameters, a non-variadic
callee requires exactly as many; when the law holds, the call proceeds to
check the arguments against the parameter types and yields the declared
return type. -/
theorem tyck_call_arity_law (t : Tycker) (func : KalosExpr) (args : List KalosExpr)
    (signature : KalosSignature)
    (h : Tycker.tyck_expr t func = .ok (.Function signature)) :
    Tycker.tyck_expr t (.Call func args) =
      if (signature.variadic = true → signature.params.length ≤ args.length) ∧
         (signature.variadic = false → args.length = signature.params.length)
      then
        match Tycker.tyck_call_args t signature.params args with
        | .panic => .panic
        | .err e => .err e
        | .ok _ => .ok signature.return_type
      else .err .ArgError := by
  have hcond : (args.length = signature.params.length ∨
      (signature.variadic = true ∧ signature.params.length < args.length)) ↔
      ((signature.variadic = true → signature.params.length ≤ args.length) ∧
       (signature.variadic = false → args.length = signature.params.length)) := by
    cases hv : signature.variadic
    all_goals simp
    all_goals omega
  rw [tyck_expr_Call_eq, h]
  exact if_congr hcond rfl rfl

/-- Witness for `tyck_call_arity_law`: one argument passed to a declared
zero-parameter non-variadic function is an `ArgError`. -/
theorem tyck_call_arity_law_witness :
    Tycker.tyck_expr ⟨⟨[[("f", .Function (.mk [] .Unit false))]]⟩, none⟩
      (.Call (.Identifier "f") [.IntLiteral 0]) = .err .ArgError := by
  rw [tyck_call_arity_law ⟨⟨[[("f", .Function (.mk [] .Unit false))]]⟩, none⟩
    (.Identifier "f") [.IntLiteral 0] (.mk [] .Unit false) rfl]
  decide

/-- C6: `try_unify(e, a)` returns `a` when the expected side is `Auto`,
returns `a` when the two types are structurally equal, and otherwise fails
with `TypeError{expect = e, found = a}`; in particular unification is
asymmetric — an `Auto` on the actual side does not unify with a different
concrete expected type. -/
theorem try_unify_spec (e a : KalosType) :
    (e = .Auto → e.try_unify a = .ok a) ∧
    (e = a → e.try_unify a = .ok a) ∧
    (e ≠ .Auto → e ≠ a → e.try_unify a = .error (.TypeError e a)) := by
  refine ⟨fun h => ?_, fun h => ?_, fun h1 h2 => ?_⟩
  · subst h; rfl
  · subst h
    cases e <;> simp [KalosType.try_unify]
  · cases e
    case Auto => exact absurd rfl h1
    all_goals simp [KalosType.try_unify, h2]

/-- Witness for `try_unify_spec`: the asymmetric failure of unifying
expected `Bool` against actual `Auto`. -/
theorem try_unify_spec_witness :
    KalosType.try_unify .Bool .Auto = .error (.TypeError .Bool .Auto) :=
  (try_unify_spec .Bool .Auto).2.2 (by decide) (by decide)

/-- C7: the lowerer's lvalue translation returns `LvalueError` for every
assignment target that is not syntactically an identifier, and statement
lowering of such an assignment propagates that error; the checker, by
contrast, can accept such an assignment (here `1 = 2`, whose two sides have
equal types), so enforcement is deferred to lowering. -/
theorem assignment_lvalue_enforcement :
    (∀ (s : CGState) (lhs rhs : KalosExpr), lhs.isIdentifierExpr = false →
      LLVMCodeGen.compile_lvalue s lhs = .err .LvalueError ∧
      LLVMCodeGen.compile_stmt s (.Assignment lhs rhs) = .err .LvalueError) ∧
    Tycker.tyck_stmt Tycker.new (.Assignment (.IntLiteral 1) (.IntLiteral 2)) =
      .ok Tycker.new := by
  constructor
  · intro s lhs rhs h
    cases lhs <;> first
      | exact ⟨rfl, rfl⟩
      | simp [KalosExpr.isIdentifierExpr] at h
  · rfl

/-- Witness for `assignment_lvalue_enforcement` at a concrete non-identifier
assignment target. -/
theorem assignment_lvalue_enforcement_witness :
    LLVMCodeGen.compile_lvalue LLVMCodeGen.new (.IntLiteral 7) = .err .LvalueError ∧
    LLVMCodeGen.compile_stmt LLVMCodeGen.new
      (.Assignment (.IntLiteral 7) (.IntLiteral 8)) = .err .LvalueError :=
  assignment_lvalue_enforcement.1 LLVMCodeGen.new (.IntLiteral 7) (.IntLiteral 8) rfl

/-- C8: the environment is stack-disciplined and shadow-safe: `get` on an
empty stack misses; `get` on a nonempty stack returns the topmost frame's
binding when there is one and otherwise searches the remaining frames; and
a `push_empty`, any sequence of `put`s in the new scope, and the matching
`pop` return the environment exactly as it was, so bindings made in an
inner scope do not leak into the enclosing scope. -/
theorem env_scope_discipline (K V : Type) [DecidableEq K] :
    (∀ (k : K), Env.get (⟨[]⟩ : Env K V) k = none) ∧
    (∀ (f : List (K × V)) (ts : List (List (K × V))) (k : K),
      Env.get (⟨f :: ts⟩ : Env K V) k =
        match tableGet k f with
        | some v => some v
        | none => Env.get (⟨ts⟩ : Env K V) k) ∧
    (∀ (e : Env K V) (ps : List (K × V)),
      (ps.foldlM (fun acc kv => Env.put acc kv.1 kv.2) e.push_empty).bind
        (fun e2 => e2.pop.map Prod.snd) = some e) := by
  refine ⟨fun k => rfl, fun f ts k => rfl, fun e ps => ?_⟩
  obtain ⟨f2, hf⟩ := env_put_fold_top ps [] e.tables
  rw [Env.push_empty, hf]
  rfl

/-- C9 counterexample: after `tyck_toplevel` returns for a definition with a
body, the checker's `current_fn_return_type` is NOT back to `None`: it still
holds the return type of the body just checked. -/
theorem current_fn_return_type_not_cleared :
    Tycker.tyck_toplevel Tycker.new (.Def "f" (.mk [] .Unit false) (some (.Compound []))) =
      .ok ⟨⟨[[("f", .Function (.mk [] .Unit false))]]⟩, some .Unit⟩ ∧
    (some KalosType.Unit ≠ (none : Option KalosType)) := ⟨rfl, by simp⟩

/-- C9 (amended): `tyck_toplevel` on a definition with a body sets
`current_fn_return_type` on entering the body and never clears it: on
success the field holds that definition's declared return type (not
`None`); all other checker state is restored, the installed signature in
the current scope excepted — the environment comes back as exactly the
original stack with the function's type inserted into its innermost
frame. -/
theorem tyck_toplevel_state_effect (t : Tycker) (name : String)
    (signature : KalosSignature) (body : KalosStmt) (t2 : Tycker)
    (f : List (String × KalosType)) (ts : List (List (String × KalosType)))
    (henv : t.env.tables = f :: ts)
    (h : Tycker.tyck_toplevel t (.Def name signature (some body)) = .ok t2) :
    t2.current_fn_return_type = some signature.return_type ∧
    t2.env.tables = tableInsert name (.Function signature) f :: ts := by
  simp only [Tycker.tyck_toplevel, Env.put] at h
  rw [henv] at h
  simp at h
  cases e1 : Tycker.tyck_stmt
      { env := Env.push ⟨tableInsert name (KalosType.Function signature) f :: ts⟩
          (List.foldl (fun acc p => tableInsert p.1 p.2 acc) [] signature.params),
        current_fn_return_type := some signature.return_type } body with
  | panic => rw [e1] at h; simp at h
  | err e => rw [e1] at h; simp at h
  | ok t3 =>
    rw [e1] at h
    simp at h
    obtain ⟨hcrt, htab⟩ := tyck_stmt_frame body _ _ e1
    obtain ⟨f2, hf2⟩ := htab _ _ rfl
    simp only [Env.pop] at h
    rw [hf2] at h
    simp at h
    subst h
    exact ⟨hcrt, rfl⟩

/-- Witness for `tyck_toplevel_state_effect` at a concrete definition. -/
theorem tyck_toplevel_state_effect_witness :
    (Tycker.mk ⟨[[("g", KalosType.Function (.mk [] .Bool false))]]⟩
        (some .Bool)).current_fn_return_type =
      some ((KalosSignature.mk [] KalosType.Bool false).return_type) ∧
    (Tycker.mk ⟨[[("g", KalosType.Function (.mk [] .Bool false))]]⟩
        (some .Bool)).env.tables =
      tableInsert "g" (.Function (.mk [] .Bool false)) [] :: [] :=
  tyck_toplevel_state_effect Tycker.new "g" (.mk [] .Bool false) (.Compound [])
    ⟨⟨[[("g", KalosType.Function (.mk [] .Bool false))]]⟩, some .Bool⟩ [] [] rfl rfl

/-- C10 counterexample: a `Builtin` node with a single argument whose
checking fails does NOT panic — the checker returns the argument's error
value (`NameError` here) before ever indexing `args[1]`. -/
theorem builtin_single_arg_error_not_panic :
    Tycker.tyck_builtin Tycker.new .Add [.Identifier "y"] = .err .NameError ∧
    Tycker.tyck_builtin Tycker.new .Add [.Identifier "y"] ≠ .panic := ⟨rfl, by decide⟩

/-- C10 (amended): checking and lowering of builtin applications index
`args[0]` first and `args[1]` only after the first operand succeeds: with
no arguments both panic unconditionally; with one argument they panic when
the first operand checks or lowers successfully, and propagate the error
otherwise; and with at least two arguments the result ignores every
argument beyond the second, so the out-of-bounds indexing panic is
unreachable there (for the checker, a non-panicking pair of operands never
produces a panic at all). -/
theorem builtin_indexing_behavior :
    (∀ (t : Tycker) (b : KalosBuiltin), Tycker.tyck_builtin t b [] = .panic) ∧
    (∀ (s : CGState) (b : KalosBuiltin), LLVMCodeGen.compile_builtin s b [] = .panic) ∧
    (∀ (t : Tycker) (b : KalosBuiltin) (a : KalosExpr) (ty : KalosType),
      Tycker.tyck_expr t a = .ok ty → Tycker.tyck_builtin t b [a] = .panic) ∧
    (∀ (t : Tycker) (b : KalosBuiltin) (a : KalosExpr) (e : KalosError),
      Tycker.tyck_expr t a = .err e → Tycker.tyck_builtin t b [a] = .err e) ∧
    (∀ (s : CGState) (b : KalosBuiltin) (a : KalosExpr) (e : KalosError),
      LLVMCodeGen.compile_expr s a = .err e → LLVMCodeGen.compile_builtin s b [a] = .err e) ∧
    (∀ (t : Tycker) (b : KalosBuiltin) (a0 a1 : KalosExpr) (rest : List KalosExpr),
      Tycker.tyck_builtin t b (a0 :: a1 :: rest) = Tycker.tyck_builtin t b [a0, a1]) ∧
    (∀ (s : CGState) (b : KalosBuiltin) (a0 a1 : KalosExpr) (rest : List KalosExpr),
      LLVMCodeGen.compile_builtin s b (a0 :: a1 :: rest) =
        LLVMCodeGen.compile_builtin s b [a0, a1]) ∧
    (∀ (t : Tycker) (b : KalosBuiltin) (a0 a1 : KalosExpr) (rest : List KalosExpr),
      Tycker.tyck_expr t a0 ≠ .panic → Tycker.tyck_expr t a1 ≠ .panic →
      Tycker.tyck_builtin t b (a0 :: a1 :: rest) ≠ .panic) := by
  refine ⟨fun t b => rfl, fun s b => rfl, ?_, ?_, ?_,
    fun t b a0 a1 rest => rfl, fun s b a0 a1 rest => rfl, ?_⟩
  · intro t b a ty h
    rw [tyck_builtin_one, h]
  · intro t b a e h
    rw [tyck_builtin_one, h]
  · intro s b a e h
    rw [compile_builtin_one, h]
  · intro t b a0 a1 rest h0 h1
    rw [tyck_builtin_cons_cons]
    cases e0 : Tycker.tyck_expr t a0 with
    | panic => exact absurd e0 h0
    | err e => simp
    | ok lhs =>
      cases e1 : Tycker.tyck_expr t a1 with
      | panic => exact absurd e1 h1
      | err e => simp
      | ok rhs => cases b <;> simp

/-- Witness for `builtin_indexing_behavior`: a single well-typed argument
makes the checker panic at the `args[1]` index. -/
theorem builtin_indexing_behavior_witness :
    Tycker.tyck_builtin Tycker.new .Add [.IntLiteral 1] = .panic :=
  builtin_indexing_behavior.2.2.1 Tycker.new .Add (.IntLiteral 1) (.Integer true 64) rfl
